import Mathlib

/-!
Shallow embedding of the URL-shortener service in `src/tables/urls.py`
(services `UrlsService` and `UrlsStatService`), together with proofs of the
specification claims about it.

Modelling conventions:
* timestamps are integers (minutes); `timedelta(days=1)` is `1440`,
  `timedelta(hours=1)` is `60`;
* the pseudo-random generator behind `random.choice` is a stream
  `g : Nat → Nat`; the i-th draw picks index `g i % 62` into the alphabet;
* the database is a pair of tables (`urls`, `clicks`); the SQLAlchemy
  session is a committed database plus pending (not yet committed) rows;
  `commit` fails (IntegrityError) exactly when a pending url row violates
  the unique constraint on `short_url`; `rollback` discards pending rows;
* SQL `LIKE` is the standard wildcard matcher (`%` any sequence, `_` any
  single character), applied to the pattern `'%/' + short_url_key` built
  by the code;
* the validation regex of `create_new_url` is embedded as an executable
  matcher `matchesUrlPattern` (Python `re.match` with a `$`-anchored
  pattern: `$` also matches just before one trailing newline, and `.`
  does not match a newline).
-/

namespace ShortUrls

/-- The error outcomes of the service:
`invalidUrl` = HTTP 400 "Incorrect original url...",
`tooShort` = HTTP 400 "To generate short url must have at least 3 path segments...",
`notFound` = HTTP 404 "Url not found", `notActive` = HTTP 410 "Not active",
`keyExhaustion` = the plain `Exception` raised after 10 failed attempts,
`integrity` = an uncaught persistence-layer IntegrityError. -/
inductive UrlError where
  | invalidUrl
  | tooShort
  | notFound
  | notActive
  | keyExhaustion
  | integrity
deriving DecidableEq

/-- A row of the `urls` table (model `Urls` in `src/tables/models.py`). -/
structure Urls where
  id : Nat
  origin_url : String
  short_url : String
  created_at : Int
  expires_at : Int
  is_active : Bool
  user_id : Nat
deriving DecidableEq

/-- A row of the `url_clicks` table (model `UrlClicks`). -/
structure UrlClicks where
  url_id : Nat
  clicked_at : Int
deriving DecidableEq

/-- The committed database state. -/
structure DB where
  urls : List Urls
  clicks : List UrlClicks
deriving DecidableEq

/-- A SQLAlchemy session: committed state plus pending `add`ed rows. -/
structure Session where
  committed : DB
  pending_urls : List Urls
  pending_clicks : List UrlClicks
deriving DecidableEq

/-- A fresh session over a committed database. -/
def Session.fresh (db : DB) : Session := ⟨db, [], []⟩

/-- `session.add(new_url)`. -/
def Session.add_url (s : Session) (u : Urls) : Session :=
  { s with pending_urls := s.pending_urls ++ [u] }

/-- `session.add(new_click)`. -/
def Session.add_click (s : Session) (c : UrlClicks) : Session :=
  { s with pending_clicks := s.pending_clicks ++ [c] }

/-- Does a committed url row already carry this `short_url`?
(the unique constraint on `Urls.short_url`). -/
def hasShortUrl (db : DB) (su : String) : Bool :=
  db.urls.any (fun u => u.short_url == su)

/-- `session.commit()`: `none` models an `IntegrityError` (a pending url row
violates the `short_url` unique constraint); otherwise the pending rows are
appended to the committed state. -/
def Session.commit (s : Session) : Option Session :=
  if s.pending_urls.any (fun u => hasShortUrl s.committed u.short_url) then none
  else some ⟨⟨s.committed.urls ++ s.pending_urls,
             s.committed.clicks ++ s.pending_clicks⟩, [], []⟩

/-- `session.rollback()`: discard pending rows. -/
def Session.rollback (s : Session) : Session :=
  { s with pending_urls := [], pending_clicks := [] }

/-! ### SQL LIKE matching (used by `Urls.short_url.like(f'%/{short_url_key}')`) -/

/-- Fuelled SQL `LIKE` matcher: `%` matches any sequence, `_` any single
character, anything else matches itself.  Each recursive call strictly
decreases `p.length + s.length`, so fuel `p.length + s.length + 1` is
always sufficient. -/
def likeMatchF : Nat → List Char → List Char → Bool
  | 0, _, _ => false
  | _ + 1, [], s => s.isEmpty
  | fuel + 1, c :: ps, s =>
    if c = '%' then
      likeMatchF fuel ps s ||
        (match s with
         | [] => false
         | _ :: s1 => likeMatchF fuel (c :: ps) s1)
    else
      match s with
      | [] => false
      | d :: s1 => (if c = '_' then true else c == d) && likeMatchF fuel ps s1

/-- SQL `LIKE`: does string `s` match pattern `p`? -/
def likeMatch (p s : List Char) : Bool :=
  likeMatchF (p.length + s.length + 1) p s

/-- The LIKE pattern `'%/' + short_url_key` the service builds. -/
def likePattern (short_url_key : String) : List Char :=
  '%' :: '/' :: short_url_key.data

/-! ### The validation regex of `create_new_url`

`^https?://(localhost|(\d{1,3}\.){3}\d{1,3}|([a-zA-Z0-9-]+\.)+[a-zA-Z]{2,})(:\d+)?(/.*)?$`
-/

/-- A character of the class `[a-zA-Z0-9-]` (hostname label characters). -/
def isAlnumDash (c : Char) : Bool := c.isAlpha || c.isDigit || c == '-'

/-- Consume a literal character sequence; return the rest on success. -/
def chompLit : List Char → List Char → Option (List Char)
  | [], l => some l
  | _ :: _, [] => none
  | c :: cs, d :: ds => if c = d then chompLit cs ds else none

/-- Consume `https?://`. -/
def chompScheme (l : List Char) : Option (List Char) :=
  match chompLit "http".data l with
  | none => none
  | some rest =>
    match rest with
    | 's' :: rest1 => chompLit "://".data rest1
    | _ => chompLit "://".data rest

/-- Consume `\d{1,3}` (maximal munch; equivalent to the regex here because a
digit can never start the continuation of this group). -/
def parseNum13 (l : List Char) : Option (List Char) :=
  let ds := l.takeWhile Char.isDigit
  if ds.length = 0 ∨ 3 < ds.length then none
  else some (l.dropWhile Char.isDigit)

/-- Consume `(\d{1,3}\.){3}\d{1,3}` (the dotted-quad host alternative). -/
def dottedQuad (l : List Char) : Option (List Char) := do
  let r1 ← parseNum13 l
  match r1 with
  | '.' :: r1a =>
    let r2 ← parseNum13 r1a
    match r2 with
    | '.' :: r2a =>
      let r3 ← parseNum13 r2a
      match r3 with
      | '.' :: r3a => parseNum13 r3a
      | _ => none
    | _ => none
  | _ => none

/-- Consume one `[a-zA-Z0-9-]+\.` group (maximal munch on the label; `.` is
not a label character, so this is equivalent to the regex group). -/
def parseLabelDot (l : List Char) : Option (List Char) :=
  let ds := l.takeWhile isAlnumDash
  let rest := l.dropWhile isAlnumDash
  if ds.isEmpty then none
  else
    match rest with
    | '.' :: rest1 => some rest1
    | _ => none

/-- Fuelled greedy `([a-zA-Z0-9-]+\.)+`: consume as many label-dot groups as
possible (at least one).  Each group consumes at least two characters, so
fuel `l.length + 1` is always sufficient.  Greediness is equivalent to the
backtracking regex because the TLD `[a-zA-Z]{2,}` followed by
`(:\d+)?(/.*)?$` can never start where a further label-dot group matches. -/
def parseLabelsF : Nat → List Char → Option (List Char)
  | 0, _ => none
  | fuel + 1, l =>
    match parseLabelDot l with
    | none => none
    | some rest =>
      match parseLabelsF fuel rest with
      | some r => some r
      | none => some rest

/-- Greedy `([a-zA-Z0-9-]+\.)+`. -/
def parseLabels (l : List Char) : Option (List Char) :=
  parseLabelsF (l.length + 1) l

/-- Consume the TLD `[a-zA-Z]{2,}` (maximal munch; equivalent because a
letter can never start the continuation `(:\d+)?(/.*)?$`). -/
def parseTld (l : List Char) : Option (List Char) :=
  let ds := l.takeWhile Char.isAlpha
  if ds.length < 2 then none
  else some (l.dropWhile Char.isAlpha)

/-- Consume the optional port `(:\d+)?`.  If the input starts with `:` the
group must match (nothing else can consume a `:`), otherwise it is skipped. -/
def parseOptPort (l : List Char) : Option (List Char) :=
  match l with
  | ':' :: rest =>
    let ds := rest.takeWhile Char.isDigit
    if ds.isEmpty then none else some (rest.dropWhile Char.isDigit)
  | _ => some l

/-- No newline characters. -/
def noNewline (l : List Char) : Bool := l.all (fun c => !(c = '\n'))

/-- Match the tail `(/.*)?$` of the pattern: either we are at the end (or
just before one trailing newline, as Python's `$` allows), or a `/` followed
by newline-free text, possibly with one trailing newline before the end. -/
def parsePathEnd : List Char → Bool
  | [] => true
  | ['\n'] => true
  | '/' :: rest =>
    noNewline rest || (rest.getLast? = some '\n' && noNewline rest.dropLast)
  | _ => false

/-- Match `(:\d+)?(/.*)?$`. -/
def parseAfterHost (l : List Char) : Bool :=
  match parseOptPort l with
  | none => false
  | some r => parsePathEnd r

/-- Does the whole string match the validation regex of `create_new_url`?
The three host alternatives are tried each with the full continuation. -/
def matchesUrlPattern (origin_url : String) : Bool :=
  match chompScheme origin_url.data with
  | none => false
  | some l =>
    (match chompLit "localhost".data l with
     | some r => parseAfterHost r
     | none => false) ||
    (match dottedQuad l with
     | some r => parseAfterHost r
     | none => false) ||
    (match parseLabels l with
     | some r =>
       match parseTld r with
       | some r2 => parseAfterHost r2
       | none => false
     | none => false)

/-! ### `UrlsService` -/

/-- `string.ascii_letters + string.digits`: the 62-character alphabet. -/
def chars : List Char :=
  "abcdefghijklmnopqrstuvwxyzABCDEFGHIJKLMNOPQRSTUVWXYZ0123456789".data

/-- `UrlsService._generate_key`: ten draws of `random.choice(chars)`,
the draws starting at position `pos` of the random stream `g`. -/
def _generate_key (g : Nat → Nat) (pos : Nat) : String :=
  String.mk ((List.range 10).map (fun i => chars.getD (g (pos + i) % 62) 'a'))

/-- Python's `str.split(sep)` for a one-character separator: split into the
(possibly empty) segments between occurrences of `sep`. -/
def splitOnChar (sep : Char) : List Char → List (List Char)
  | [] => [[]]
  | c :: rest =>
    let r := splitOnChar sep rest
    if c = sep then [] :: r
    else
      match r with
      | [] => [[c]]
      | seg :: segs => (c :: seg) :: segs

/-- `UrlsService._generate_prefix`: the segment count of the original url
split on `/`, paired with the fixed configured prefix. -/
def _generate_prefix (origin_url : String) : Nat × String :=
  ((splitOnChar '/' origin_url.data).length, "http://localhost:8000")

/-- `UrlsService._generate_short_url`: HTTP 400 when the original url has at
most 3 `/`-segments, otherwise prefix + `/` + freshly generated key. -/
def _generate_short_url (origin_url : String) (g : Nat → Nat) (pos : Nat) :
    Except UrlError String :=
  let p := _generate_prefix origin_url
  if p.1 ≤ 3 then .error .tooShort
  else .ok (p.2 ++ "/" ++ _generate_key g pos)

/-- `UrlsService.get_origin_url`: suffix-LIKE lookup, 404 when absent,
410 when found but inactive. -/
def get_origin_url (short_url_key : String) (db : DB) : Except UrlError Urls :=
  match db.urls.find? (fun u => likeMatch (likePattern short_url_key) u.short_url.data) with
  | none => .error .notFound
  | some url => if url.is_active then .ok url else .error .notActive

/-- `UrlsService.deactivate_urls`: one bulk `UPDATE` setting
`is_active = False` on every row with `expires_at <= now` and `is_active`. -/
def deactivate_urls (now : Int) (db : DB) : DB :=
  { db with urls := db.urls.map (fun u =>
      if u.expires_at ≤ now ∧ u.is_active = true then
        { u with is_active := false } else u) }

/-- `UrlsService.add_url_click`: select the id of the first row whose
`short_url` LIKE-matches `'%/' + short_url_key` (404 when the id is falsy,
i.e. absent or `0`), append a `UrlClicks` row and commit; any raised error
is preceded by a rollback. -/
def add_url_click (short_url_key : String) (now : Int) (db : DB) :
    Except UrlError UrlClicks × Session :=
  let s := Session.fresh db
  match (db.urls.find? (fun u =>
      likeMatch (likePattern short_url_key) u.short_url.data)).map (fun u => u.id) with
  | none => (.error .notFound, s.rollback)
  | some url_id =>
    if url_id = 0 then (.error .notFound, s.rollback)
    else
      let new_click : UrlClicks := { url_id := url_id, clicked_at := now }
      let s1 := s.add_click new_click
      match s1.commit with
      | some s2 => (.ok new_click, s2)
      | none => (.error .integrity, s1.rollback)

/-- The url row `create_new_url` builds (`id` models the autoincrement). -/
def mkUrlRow (db : DB) (origin_url short_url : String) (user_id : Nat)
    (now : Int) : Urls :=
  { id := db.urls.length + 1, origin_url := origin_url, short_url := short_url,
    created_at := now, expires_at := now + 1440, is_active := true,
    user_id := user_id }

deriving instance DecidableEq for Except

/-- The outcome of `create_new_url`: result, final session state, and the
list of short urls whose insertion was attempted. -/
structure CreateOutcome where
  result : Except UrlError Urls
  sess : Session
  tried : List String
deriving DecidableEq

/-- The `for attempt in range(10)` retry loop of `create_new_url`.  `fuel` is
the number of attempts left; on an `IntegrityError` the session is rolled
back and, unless this was the last attempt, the loop retries with ten fresh
random draws. -/
def create_loop (origin_url : String) (user_id : Nat) (now : Int)
    (g : Nat → Nat) : Nat → Nat → Session → List String → CreateOutcome
  | _, 0, s, tried => ⟨.error .keyExhaustion, s, tried⟩
  | pos, fuel + 1, s, tried =>
    match _generate_short_url origin_url g pos with
    | .error e => ⟨.error e, s, tried⟩
    | .ok su =>
      let row := mkUrlRow s.committed origin_url su user_id now
      let s1 := s.add_url row
      match s1.commit with
      | some s2 => ⟨.ok row, s2, tried ++ [su]⟩
      | none =>
        let s3 := s1.rollback
        if fuel = 0 then ⟨.error .keyExhaustion, s3, tried ++ [su]⟩
        else create_loop origin_url user_id now g (pos + 10) fuel s3 (tried ++ [su])

/-- `UrlsService.create_new_url`: regex validation (HTTP 400 on failure),
then up to ten insert attempts with freshly generated keys. -/
def create_new_url (origin_url : String) (user_id : Nat) (now : Int)
    (g : Nat → Nat) (db : DB) : CreateOutcome :=
  if matchesUrlPattern origin_url then
    create_loop origin_url user_id now g 0 10 (Session.fresh db) []
  else ⟨.error .invalidUrl, Session.fresh db, []⟩

/-! ### `UrlsStatService` -/

/-- The derived statistics record (`UrlStatistic` in `src/tables/schemas.py`). -/
structure UrlStatistic where
  link : String
  orig_link : String
  last_hour_clicks : Nat
  last_day_clicks : Nat
deriving DecidableEq

/-- `UrlsStatService._get_last_hour_stat`: clicks of the link whose
`clicked_at` is at least `now - 1h`, where `now_tz` is the clock of the
designated timezone (`Europe/Moscow`), tz-stripped. -/
def _get_last_hour_stat (db : DB) (now_tz : Int) (short_url_id : Nat) : Nat :=
  (db.clicks.filter (fun c =>
    c.url_id == short_url_id && decide (now_tz - 60 ≤ c.clicked_at))).length

/-- `UrlsStatService._get_last_day_stat`: same with `now - 24h`. -/
def _get_last_day_stat (db : DB) (now_tz : Int) (short_url_id : Nat) : Nat :=
  (db.clicks.filter (fun c =>
    c.url_id == short_url_id && decide (now_tz - 1440 ≤ c.clicked_at))).length

/-- The `UrlStatistic` built for one url row in `get_full_stat`. -/
def mkStat (db : DB) (now_tz : Int) (url : Urls) : UrlStatistic :=
  { link := url.short_url, orig_link := url.origin_url,
    last_hour_clicks := _get_last_hour_stat db now_tz url.id,
    last_day_clicks := _get_last_day_stat db now_tz url.id }

/-- Stable descending insertion on `last_day_clicks` (ties keep order). -/
def insort (x : UrlStatistic) : List UrlStatistic → List UrlStatistic
  | [] => [x]
  | y :: ys =>
    if y.last_day_clicks < x.last_day_clicks then x :: y :: ys
    else y :: insort x ys

/-- Python's `sorted(key=lambda x: x.last_day_clicks, reverse=True)`:
a stable descending sort on `last_day_clicks`. -/
def sortByDayDesc (l : List UrlStatistic) : List UrlStatistic :=
  l.foldl (fun acc x => insort x acc) []

/-- The per-short-url loop of `get_full_stat`: re-fetch the row by exact
`short_url` equality (404 when absent, aborting the whole report) and build
its statistics record. -/
def stat_loop (db : DB) (now_tz : Int) :
    List String → Except UrlError (List UrlStatistic)
  | [] => .ok []
  | su :: rest =>
    match db.urls.find? (fun u => u.short_url == su) with
    | none => .error .notFound
    | some url =>
      match stat_loop db now_tz rest with
      | .error e => .error e
      | .ok tl => .ok (mkStat db now_tz url :: tl)

/-- `UrlsStatService.get_full_stat`: one statistics record per url row,
sorted descending by last-day clicks. -/
def get_full_stat (now_tz : Int) (db : DB) : Except UrlError (List UrlStatistic) :=
  match stat_loop db now_tz (db.urls.map (fun u => u.short_url)) with
  | .error e => .error e
  | .ok stats => .ok (sortByDayDesc stats)

/-- A default url row (used with `List.getD` in statements). -/
def dummyUrl : Urls := ⟨0, "", "", 0, 0, false, 0⟩

/-- A database whose only row already holds the short url that the constant
random stream `fun _ => 0` always generates (`.../aaaaaaaaaa`). -/
def dbCollide : DB :=
  ⟨[⟨1, "http://ex.com/a/b", "http://localhost:8000/aaaaaaaaaa", 0, 1440, true, 1⟩], []⟩

/-- The row `create_new_url "http://ex.com/a/b" 1 5 (fun n => n)` produces on
an empty database (the identity stream draws `abcdefghij`). -/
def rowW : Urls :=
  ⟨1, "http://ex.com/a/b", "http://localhost:8000/abcdefghij", 5, 1445, true, 1⟩

/-- A database whose single row has short url `http://localhost:8000/ab`
(so the key `ab` matches as a literal suffix, while the wildcard key `%`
LIKE-matches without being a literal suffix). -/
def dbLike : DB :=
  ⟨[⟨1, "http://ex.com/a/b", "http://localhost:8000/ab", 0, 1440, true, 1⟩], []⟩

/-- A statistics example: link 1 has a click inside the last hour (clock
100) and one only inside the last day; link 2 has one click inside the last
hour. -/
def dbStat : DB :=
  ⟨[⟨1, "http://a.bc/x/y", "http://localhost:8000/kA", 0, 1440, true, 1⟩,
    ⟨2, "http://a.bc/x/z", "http://localhost:8000/kB", 0, 1440, true, 1⟩],
   [⟨1, 90⟩, ⟨1, 10⟩, ⟨2, 99⟩]⟩

/-- A database with an expired active row, a live active row and an expired
inactive row (relative to clock 100), plus one click. -/
def dbSweep : DB :=
  ⟨[⟨1, "http://a.bc/x/y", "http://localhost:8000/k1", 0, 50, true, 1⟩,
    ⟨2, "http://a.bc/x/z", "http://localhost:8000/k2", 0, 200, true, 1⟩,
    ⟨3, "http://a.bc/x/w", "http://localhost:8000/k3", 0, 40, false, 1⟩],
   [⟨1, 5⟩]⟩

/-! ### Lemmas about `_generate_short_url` and the retry loop -/

theorem gsu_of_le {o : String} (g : Nat → Nat) (pos : Nat)
    (h : ( _generate_prefix o).1 ≤ 3) :
    _generate_short_url o g pos = .error .tooShort := by
  simp [ _generate_short_url, h]

theorem gsu_of_gt {o : String} (g : Nat → Nat) (pos : Nat)
    (h : 3 < ( _generate_prefix o).1) :
    _generate_short_url o g pos =
      .ok ("http://localhost:8000/" ++ _generate_key g pos) := by
  simp [ _generate_short_url, Nat.not_le.mpr h]
  rfl

section LoopLemmas

variable {o : String} {uid : Nat} {now : Int} {g : Nat → Nat}

/-- The retry loop never produces the validation error. -/
theorem loop_ne_invalid : ∀ (fuel pos : Nat) (s : Session) (tried : List String),
    (create_loop o uid now g pos fuel s tried).result ≠ .error .invalidUrl := by
  intro fuel
  induction fuel with
  | zero => intro pos s tried; simp [create_loop]
  | succ fuel ih =>
    intro pos s tried
    by_cases hseg : ( _generate_prefix o).1 ≤ 3
    · simp [create_loop, gsu_of_le g pos hseg]
    · rw [create_loop, gsu_of_gt g pos (Nat.not_le.mp hseg)]
      rcases hcommit : (s.add_url (mkUrlRow s.committed o
          ("http://localhost:8000/" ++ _generate_key g pos) uid now)).commit with _ | s2
      · simp only [hcommit]
        by_cases hf : fuel = 0
        · simp [hf]
        · simp only [hf, if_false]
          exact ih _ _ _
      · simp [hcommit]

/-- If the original url has at most three `/`-segments, the first attempt
raises the too-short error and the session is untouched. -/
theorem loop_tooShort (pos fuel : Nat) (s : Session) (tried : List String)
    (hseg : ( _generate_prefix o).1 ≤ 3) :
    create_loop o uid now g pos (fuel + 1) s tried = ⟨.error .tooShort, s, tried⟩ := by
  rw [create_loop, gsu_of_le g pos hseg]

/-- If the original url has more than three `/`-segments, the loop never
produces the too-short error. -/
theorem loop_ne_tooShort (hseg : 3 < ( _generate_prefix o).1) :
    ∀ (fuel pos : Nat) (s : Session) (tried : List String),
    (create_loop o uid now g pos fuel s tried).result ≠ .error .tooShort := by
  intro fuel
  induction fuel with
  | zero => intro pos s tried; simp [create_loop]
  | succ fuel ih =>
    intro pos s tried
    rw [create_loop, gsu_of_gt g pos hseg]
    rcases hcommit : (s.add_url (mkUrlRow s.committed o
        ("http://localhost:8000/" ++ _generate_key g pos) uid now)).commit with _ | s2
    · simp only [hcommit]
      by_cases hf : fuel = 0
      · simp [hf]
      · simp only [hf, if_false]
        exact ih _ _ _
    · simp [hcommit]

/-- On any error outcome the final session is the fresh session over the
original committed database: every failed attempt was rolled back. -/
theorem loop_error_sess : ∀ (fuel pos : Nat) (db : DB) (tried : List String)
    (e : UrlError),
    (create_loop o uid now g pos fuel (Session.fresh db) tried).result = .error e →
    (create_loop o uid now g pos fuel (Session.fresh db) tried).sess = Session.fresh db := by
  intro fuel
  induction fuel with
  | zero => intro pos db tried e _; simp [create_loop]
  | succ fuel ih =>
    intro pos db tried e
    by_cases hseg : ( _generate_prefix o).1 ≤ 3
    · rw [loop_tooShort pos fuel _ _ hseg]
      intro; rfl
    · rw [create_loop, gsu_of_gt g pos (Nat.not_le.mp hseg)]
      rcases hcommit : ((Session.fresh db).add_url (mkUrlRow (Session.fresh db).committed o
          ("http://localhost:8000/" ++ _generate_key g pos) uid now)).commit with _ | s2
      · simp only [hcommit]
        by_cases hf : fuel = 0
        · simp [hf, Session.fresh, Session.add_url, Session.rollback]
        · simp only [hf, if_false]
          have : ((Session.fresh db).add_url (mkUrlRow (Session.fresh db).committed o
              ("http://localhost:8000/" ++ _generate_key g pos) uid now)).rollback =
              Session.fresh db := by
            simp [Session.fresh, Session.add_url, Session.rollback]
          rw [this]
          exact ih _ _ _ _
      · simp [hcommit]

/-- On a success outcome, the committed state gained exactly the returned
row, nothing is pending, and the row was built by `mkUrlRow` from a
generated short url. -/
theorem loop_ok : ∀ (fuel pos : Nat) (db : DB) (tried : List String) (row : Urls),
    (create_loop o uid now g pos fuel (Session.fresh db) tried).result = .ok row →
    (create_loop o uid now g pos fuel (Session.fresh db) tried).sess =
      ⟨⟨db.urls ++ [row], db.clicks⟩, [], []⟩ ∧
    ∃ pos2, row = mkUrlRow db o ("http://localhost:8000/" ++ _generate_key g pos2) uid now := by
  intro fuel
  induction fuel with
  | zero => intro pos db tried row h; simp [create_loop] at h
  | succ fuel ih =>
    intro pos db tried row
    by_cases hseg : ( _generate_prefix o).1 ≤ 3
    · rw [loop_tooShort pos fuel _ _ hseg]
      intro h; exact absurd h (by simp)
    · rw [create_loop, gsu_of_gt g pos (Nat.not_le.mp hseg)]
      cases hcol : hasShortUrl db ("http://localhost:8000/" ++ _generate_key g pos) with
      | true =>
        have hc : ((Session.fresh db).add_url (mkUrlRow (Session.fresh db).committed o
            ("http://localhost:8000/" ++ _generate_key g pos) uid now)).commit = none := by
          simp [Session.commit, Session.add_url, Session.fresh, mkUrlRow, hcol]
        simp only [hc]
        by_cases hf : fuel = 0
        · simp [hf]
        · simp only [hf, if_false]
          have hroll : ((Session.fresh db).add_url (mkUrlRow (Session.fresh db).committed o
              ("http://localhost:8000/" ++ _generate_key g pos) uid now)).rollback =
              Session.fresh db := by
            simp [Session.fresh, Session.add_url, Session.rollback]
          rw [hroll]
          exact ih _ _ _ _
      | false =>
        have hc : ((Session.fresh db).add_url (mkUrlRow (Session.fresh db).committed o
            ("http://localhost:8000/" ++ _generate_key g pos) uid now)).commit =
            some ⟨⟨db.urls ++ [mkUrlRow db o
              ("http://localhost:8000/" ++ _generate_key g pos) uid now], db.clicks⟩, [], []⟩ := by
          simp [Session.commit, Session.add_url, Session.fresh, mkUrlRow, hcol]
        simp only [hc]
        intro h
        have hrow : mkUrlRow db o ("http://localhost:8000/" ++ _generate_key g pos) uid now
            = row := by
          simpa [Session.fresh] using h
        subst hrow
        exact ⟨rfl, pos, rfl⟩

/-- When every attempted short url collides with a committed row, the loop
uses all its attempts, rolls each one back and fails with the exhaustion
error, the attempted short urls being freshly generated (ten random draws
apart) in stream order. -/
theorem loop_allCollide (hseg : 3 < ( _generate_prefix o).1) :
    ∀ (fuel pos : Nat) (db : DB) (tried : List String), fuel ≠ 0 →
    (∀ i, i < fuel →
      hasShortUrl db ("http://localhost:8000/" ++ _generate_key g (pos + 10 * i)) = true) →
    create_loop o uid now g pos fuel (Session.fresh db) tried =
      ⟨.error .keyExhaustion, Session.fresh db,
        tried ++ (List.range fuel).map
          (fun i => "http://localhost:8000/" ++ _generate_key g (pos + 10 * i))⟩ := by
  intro fuel
  induction fuel with
  | zero => intro pos db tried h; exact absurd rfl h
  | succ fuel ih =>
    intro pos db tried _ hall
    rw [create_loop, gsu_of_gt g pos (Nat.not_le.mp (Nat.not_le.mpr hseg))]
    have hcol0 : hasShortUrl db ("http://localhost:8000/" ++ _generate_key g pos) = true := by
      have := hall 0 (Nat.succ_pos fuel)
      simpa using this
    have hc : ((Session.fresh db).add_url (mkUrlRow (Session.fresh db).committed o
        ("http://localhost:8000/" ++ _generate_key g pos) uid now)).commit = none := by
      simp [Session.commit, Session.add_url, Session.fresh, mkUrlRow, hcol0]
    simp only [hc]
    have hroll : ((Session.fresh db).add_url (mkUrlRow (Session.fresh db).committed o
        ("http://localhost:8000/" ++ _generate_key g pos) uid now)).rollback =
        Session.fresh db := by
      simp [Session.fresh, Session.add_url, Session.rollback]
    by_cases hf : fuel = 0
    · subst hf
      simp [List.range_succ, hroll]
    · simp only [hf, if_false, hroll]
      rw [ih (pos + 10) db (tried ++ ["http://localhost:8000/" ++ _generate_key g pos]) hf
        (by
          intro i hi
          have := hall (i + 1) (by omega)
          have harith : pos + 10 * (i + 1) = pos + 10 + 10 * i := by omega
          rwa [harith] at this)]
      have hmap : (List.range (fuel + 1)).map
          (fun i => "http://localhost:8000/" ++ _generate_key g (pos + 10 * i)) =
          ("http://localhost:8000/" ++ _generate_key g pos) ::
            (List.range fuel).map
              (fun i => "http://localhost:8000/" ++ _generate_key g (pos + 10 + 10 * i)) := by
        rw [List.range_succ_eq_map, List.map_cons, List.map_map]
        refine congrArg₂ _ (by simp) (List.map_congr_left ?_)
        intro i _
        have harith : pos + 10 * (i + 1) = pos + 10 + 10 * i := by omega
        simp [Function.comp, harith]
      rw [hmap]
      simp

end LoopLemmas

/-- Every `random.choice` draw lands in the alphabet. -/
theorem getD_mem_chars (n : Nat) : chars.getD n 'a' ∈ chars := by
  unfold List.getD
  cases h : chars.get? n with
  | none => simp; decide
  | some c =>
    simp only [h, Option.getD_some]
    exact List.get?_mem h

/-- Every character of the alphabet is a letter or a digit. -/
theorem chars_alnum : ∀ c ∈ chars, (c.isAlpha = true ∨ c.isDigit = true) := by
  decide

/-! ### Claim theorems -/

/-- C1: if the origin url matches the pattern (and is long enough to reach
the insert) and every one of the 10 insert attempts hits the uniqueness
constraint, `create_new_url` fails with the key-exhaustion error after
exactly 10 attempts, each attempt inserting a freshly generated key (ten
new random draws per attempt), and each failed attempt is rolled back: the
final session is the untouched original database with nothing pending. -/
theorem claim_C1 (origin : String) (uid : Nat) (now : Int) (g : Nat → Nat) (db : DB)
    (hm : matchesUrlPattern origin = true)
    (hseg : 3 < (splitOnChar '/' origin.data).length)
    (hcol : ∀ i, i < 10 →
      hasShortUrl db ("http://localhost:8000/" ++ _generate_key g (10 * i)) = true) :
    create_new_url origin uid now g db =
      ⟨.error .keyExhaustion, Session.fresh db,
        (List.range 10).map (fun i => "http://localhost:8000/" ++ _generate_key g (10 * i))⟩ ∧
    (create_new_url origin uid now g db).tried.length = 10 := by
  have hseg' : 3 < ( _generate_prefix origin).1 := hseg
  have hall : ∀ i, i < 10 →
      hasShortUrl db ("http://localhost:8000/" ++ _generate_key g (0 + 10 * i)) = true := by
    intro i hi
    simpa using hcol i hi
  have hmain : create_new_url origin uid now g db =
      ⟨.error .keyExhaustion, Session.fresh db,
        (List.range 10).map (fun i => "http://localhost:8000/" ++ _generate_key g (10 * i))⟩ := by
    rw [create_new_url, if_pos hm]
    have := @loop_allCollide origin uid now g hseg' 10 0 db [] (by decide) hall
    simpa using this
  exact ⟨hmain, by rw [hmain]; simp⟩

/-- C1 witness: with the constant random stream every generated short url is
`.../aaaaaaaaaa`, which `dbCollide` already holds, so all ten attempts
collide and `create_new_url` ends in key exhaustion with the database
untouched. -/
theorem claim_C1_witness :
    matchesUrlPattern "http://ex.com/a/b" = true ∧
    3 < (splitOnChar '/' "http://ex.com/a/b".data).length ∧
    (∀ i, i < 10 → hasShortUrl dbCollide
      ("http://localhost:8000/" ++ _generate_key (fun _ => 0) (10 * i)) = true) ∧
    create_new_url "http://ex.com/a/b" 1 5 (fun _ => 0) dbCollide =
      ⟨.error .keyExhaustion, Session.fresh dbCollide,
        (List.range 10).map
          (fun i => "http://localhost:8000/" ++ _generate_key (fun _ => 0) (10 * i))⟩ :=
  ⟨by decide, by decide, by decide,
    (claim_C1 "http://ex.com/a/b" 1 5 (fun _ => 0) dbCollide
      (by decide) (by decide) (by decide)).1⟩

/-- C2: `create_new_url` fails with the invalid-url error exactly when the
origin url does not match the validation regex; in particular
`create_new_url "ftp://bad"` fails with the invalid-url error. -/
theorem claim_C2 (origin : String) (uid : Nat) (now : Int) (g : Nat → Nat) (db : DB) :
    ((create_new_url origin uid now g db).result = .error .invalidUrl ↔
      matchesUrlPattern origin = false) ∧
    (create_new_url "ftp://bad" uid now g db).result = .error .invalidUrl := by
  constructor
  · constructor
    · intro h
      cases hq : matchesUrlPattern origin
      · rfl
      · rw [create_new_url, if_pos hq] at h
        exact absurd h (loop_ne_invalid _ _ _ _)
    · intro h
      simp [create_new_url, h]
  · have h : matchesUrlPattern "ftp://bad" = false := by decide
    simp [create_new_url, h]

/-- C3: for an origin url that passes validation, `create_new_url` fails
with the too-short error exactly when splitting the original input url on
`/` yields at most 3 segments (the threshold is evaluated on the input
url's segments). -/
theorem claim_C3 (origin : String) (uid : Nat) (now : Int) (g : Nat → Nat) (db : DB)
    (hm : matchesUrlPattern origin = true) :
    (create_new_url origin uid now g db).result = .error .tooShort ↔
      (splitOnChar '/' origin.data).length ≤ 3 := by
  rw [create_new_url, if_pos hm]
  constructor
  · intro h
    by_contra hseg
    have hseg' : 3 < ( _generate_prefix origin).1 := Nat.not_le.mp hseg
    exact absurd h (loop_ne_tooShort hseg' _ _ _ _)
  · intro hseg
    have hseg' : ( _generate_prefix origin).1 ≤ 3 := hseg
    have h10 : create_loop origin uid now g 0 10 (Session.fresh db) [] =
        ⟨.error .tooShort, Session.fresh db, []⟩ := by
      simpa using @loop_tooShort origin uid now g 0 9 (Session.fresh db) [] hseg'
    rw [h10]

/-- C3 witness: `http://a.bc` matches the pattern, splits into 3 segments,
and `create_new_url` on it fails with the too-short error. -/
theorem claim_C3_witness :
    matchesUrlPattern "http://a.bc" = true ∧
    (create_new_url "http://a.bc" 1 5 (fun n => n) ⟨[], []⟩).result = .error .tooShort :=
  ⟨by decide,
    (claim_C3 "http://a.bc" 1 5 (fun n => n) ⟨[], []⟩ (by decide)).mpr (by decide)⟩

/-- C4 counterexample: on the input `http://a/b` the code fails with the
invalid-url error (the host `a` has no TLD, so the regex rejects it), not
with the too-short error; moreover the `/`-split of this input has 4
segments, not at most 3 as the claim asserts. -/
theorem claim_C4_counterexample :
    (create_new_url "http://a/b" 0 0 (fun _ => 0) ⟨[], []⟩).result = .error .invalidUrl ∧
    ¬ (create_new_url "http://a/b" 0 0 (fun _ => 0) ⟨[], []⟩).result = .error .tooShort ∧
    (splitOnChar '/' "http://a/b".data).length = 4 := by
  decide

/-- C4 (amended): `create_new_url "http://a/b"` fails with the invalid-url
error, for any user, clock, random stream and database. -/
theorem claim_C4 (uid : Nat) (now : Int) (g : Nat → Nat) (db : DB) :
    (create_new_url "http://a/b" uid now g db).result = .error .invalidUrl := by
  have h : matchesUrlPattern "http://a/b" = false := by decide
  simp [create_new_url, h]

/-- C5: every successful `create_new_url` returns a row with
`created_at = now`, `expires_at = now + 24h` (so strictly later), active,
and a short url that is the fixed configured prefix (independent of the
input) followed by `/` and a fresh 10-character alphanumeric key. -/
theorem claim_C5 (origin : String) (uid : Nat) (now : Int) (g : Nat → Nat) (db : DB)
    (row : Urls) (h : (create_new_url origin uid now g db).result = .ok row) :
    row.created_at = now ∧ row.expires_at = now + 1440 ∧
    row.created_at < row.expires_at ∧ row.is_active = true ∧
    ∃ key : String, row.short_url = "http://localhost:8000" ++ "/" ++ key ∧
      key.length = 10 ∧ ∀ c ∈ key.data, (c.isAlpha = true ∨ c.isDigit = true) := by
  rw [create_new_url] at h
  by_cases hm : matchesUrlPattern origin = true
  · rw [if_pos hm] at h
    obtain ⟨-, pos2, hrow⟩ := loop_ok 10 0 db [] row h
    subst hrow
    refine ⟨rfl, rfl, by simp [mkUrlRow], rfl, _generate_key g pos2, rfl, ?_, ?_⟩
    · simp [ _generate_key]
    · intro c hc
      have hc' : c ∈ chars := by
        simp only [ _generate_key] at hc
        obtain ⟨i, -, hi⟩ := List.mem_map.mp hc
        rw [← hi]
        exact getD_mem_chars _
      exact chars_alnum c hc'
  · rw [if_neg hm] at h
    exact absurd h (by simp)

/-- C5 witness: the identity stream on an empty database produces the
concrete row `rowW` with key `abcdefghij`. -/
theorem claim_C5_witness :
    rowW.created_at = 5 ∧ rowW.expires_at = 5 + 1440 ∧
    rowW.created_at < rowW.expires_at ∧ rowW.is_active = true ∧
    ∃ key : String, rowW.short_url = "http://localhost:8000" ++ "/" ++ key ∧
      key.length = 10 ∧ ∀ c ∈ key.data, (c.isAlpha = true ∨ c.isDigit = true) :=
  claim_C5 "http://ex.com/a/b" 1 5 (fun n => n) ⟨[], []⟩ rowW (by decide)

/-- C9: for both multi-step operations (create-with-retry and record-click)
every error outcome leaves the observable state exactly the original
committed database with nothing pending (each failed step was rolled back
before retrying or re-raising), and every success commits exactly the one
new row. -/
theorem claim_C9 (origin short_url_key : String) (uid : Nat) (now : Int)
    (g : Nat → Nat) (db : DB) :
    ((∃ e, (create_new_url origin uid now g db).result = .error e) →
      (create_new_url origin uid now g db).sess = Session.fresh db) ∧
    (∀ row, (create_new_url origin uid now g db).result = .ok row →
      (create_new_url origin uid now g db).sess =
        ⟨⟨db.urls ++ [row], db.clicks⟩, [], []⟩) ∧
    ((∃ e, (add_url_click short_url_key now db).1 = .error e) →
      (add_url_click short_url_key now db).2 = Session.fresh db) ∧
    (∀ c, (add_url_click short_url_key now db).1 = .ok c →
      (add_url_click short_url_key now db).2 = ⟨⟨db.urls, db.clicks ++ [c]⟩, [], []⟩) := by
  refine ⟨?_, ?_, ?_, ?_⟩
  · rintro ⟨e, he⟩
    rw [create_new_url] at he ⊢
    by_cases hm : matchesUrlPattern origin = true
    · rw [if_pos hm] at he ⊢
      exact loop_error_sess 10 0 db [] e he
    · rw [if_neg hm]
  · intro row h
    rw [create_new_url] at h ⊢
    by_cases hm : matchesUrlPattern origin = true
    · rw [if_pos hm] at h ⊢
      exact (loop_ok 10 0 db [] row h).1
    · rw [if_neg hm] at h
      exact absurd h (by simp)
  · rintro ⟨e, he⟩
    rw [add_url_click] at he ⊢
    cases hfind : db.urls.find? (fun u =>
        likeMatch (likePattern short_url_key) u.short_url.data) with
    | none => simp [hfind, Session.rollback, Session.fresh]
    | some u =>
      simp only [hfind, Option.map_some'] at he ⊢
      by_cases hid : u.id = 0
      · simp [hid, Session.rollback, Session.fresh]
      · simp only [hid, if_false] at he ⊢
        have hc : ((Session.fresh db).add_click ⟨u.id, now⟩).commit =
            some ⟨⟨db.urls, db.clicks ++ [⟨u.id, now⟩]⟩, [], []⟩ := by
          simp [Session.commit, Session.add_click, Session.fresh]
        rw [hc] at he
        exact absurd he (by simp)
  · intro c h
    rw [add_url_click] at h ⊢
    cases hfind : db.urls.find? (fun u =>
        likeMatch (likePattern short_url_key) u.short_url.data) with
    | none => simp [hfind] at h
    | some u =>
      simp only [hfind, Option.map_some'] at h ⊢
      by_cases hid : u.id = 0
      · simp [hid] at h
      · simp only [hid, if_false] at h ⊢
        have hc : ((Session.fresh db).add_click ⟨u.id, now⟩).commit =
            some ⟨⟨db.urls, db.clicks ++ [⟨u.id, now⟩]⟩, [], []⟩ := by
          simp [Session.commit, Session.add_click, Session.fresh]
        rw [hc] at h ⊢
        simp only [Except.ok.injEq] at h
        subst h
        rfl

/-- C9 witness: a failing create (invalid url) and a failing click lookup
both leave the empty database untouched with nothing pending. -/
theorem claim_C9_witness :
    (create_new_url "ftp://bad" 0 0 (fun _ => 0) ⟨[], []⟩).sess =
      Session.fresh ⟨[], []⟩ ∧
    (add_url_click "zz" 0 (⟨[], []⟩ : DB)).2 = Session.fresh ⟨[], []⟩ :=
  ⟨(claim_C9 "ftp://bad" "zz" 0 0 (fun _ => 0) ⟨[], []⟩).1 ⟨.invalidUrl, by decide⟩,
    (claim_C9 "ftp://bad" "zz" 0 0 (fun _ => 0) ⟨[], []⟩).2.2.1 ⟨.notFound, by decide⟩⟩

/-- C6: the sweep is one bulk update that flips `is_active` to false on
exactly the rows with `expires_at <= now` that are still active, changes
nothing else (clicks untouched, row count and every other row unchanged),
and is idempotent: a second sweep at a clock `now2` at which no new row has
expired changes nothing. -/
theorem claim_C6 (now now2 : Int) (db : DB)
    (h : ∀ u ∈ db.urls, u.expires_at ≤ now2 → u.expires_at ≤ now) :
    (deactivate_urls now db).clicks = db.clicks ∧
    (deactivate_urls now db).urls.length = db.urls.length ∧
    (∀ i, i < db.urls.length →
      (((db.urls.getD i dummyUrl).expires_at ≤ now ∧
          (db.urls.getD i dummyUrl).is_active = true) →
        (deactivate_urls now db).urls.getD i dummyUrl =
          { db.urls.getD i dummyUrl with is_active := false }) ∧
      (¬((db.urls.getD i dummyUrl).expires_at ≤ now ∧
          (db.urls.getD i dummyUrl).is_active = true) →
        (deactivate_urls now db).urls.getD i dummyUrl = db.urls.getD i dummyUrl)) ∧
    deactivate_urls now2 (deactivate_urls now db) = deactivate_urls now db := by
  refine ⟨rfl, by simp [deactivate_urls], ?_, ?_⟩
  · intro i hi
    have hu : db.urls[i]? = some (db.urls.getD i dummyUrl) := by
      rw [List.getElem?_eq_getElem hi]
      rw [List.getD_eq_getElem?_getD, List.getElem?_eq_getElem hi]
      rfl
    have hmap : (deactivate_urls now db).urls.getD i dummyUrl =
        (if (db.urls.getD i dummyUrl).expires_at ≤ now ∧
            (db.urls.getD i dummyUrl).is_active = true then
          { db.urls.getD i dummyUrl with is_active := false }
        else db.urls.getD i dummyUrl) := by
      simp only [deactivate_urls]
      rw [List.getD_eq_getElem?_getD, List.getElem?_map, hu, Option.map_some',
        Option.getD_some]
    by_cases hcond : (db.urls.getD i dummyUrl).expires_at ≤ now ∧
        (db.urls.getD i dummyUrl).is_active = true
    · exact ⟨fun _ => by rw [hmap, if_pos hcond], fun hn => absurd hcond hn⟩
    · exact ⟨fun hp => absurd hp hcond, fun _ => by rw [hmap, if_neg hcond]⟩
  · show deactivate_urls now2 (deactivate_urls now db) = deactivate_urls now db
    simp only [deactivate_urls, List.map_map]
    refine congrArg₂ DB.mk ?_ rfl
    refine List.map_congr_left ?_
    intro u hu
    simp only [Function.comp_apply]
    by_cases h1 : u.expires_at ≤ now ∧ u.is_active = true
    · rw [if_pos h1]
      simp
    · rw [if_neg h1]
      by_cases h2 : u.expires_at ≤ now2 ∧ u.is_active = true
      · exact absurd ⟨h u hu h2.1, h2.2⟩ h1
      · rw [if_neg h2]

/-- C6 witness: sweeping `dbSweep` at clock 100 flips exactly the expired
active row, keeps clicks and the other rows, and a second sweep at the same
clock is a no-op. -/
theorem claim_C6_witness :
    (deactivate_urls 100 dbSweep).clicks = dbSweep.clicks ∧
    (deactivate_urls 100 dbSweep).urls.length = dbSweep.urls.length ∧
    (∀ i, i < dbSweep.urls.length →
      (((dbSweep.urls.getD i dummyUrl).expires_at ≤ 100 ∧
          (dbSweep.urls.getD i dummyUrl).is_active = true) →
        (deactivate_urls 100 dbSweep).urls.getD i dummyUrl =
          { dbSweep.urls.getD i dummyUrl with is_active := false }) ∧
      (¬((dbSweep.urls.getD i dummyUrl).expires_at ≤ 100 ∧
          (dbSweep.urls.getD i dummyUrl).is_active = true) →
        (deactivate_urls 100 dbSweep).urls.getD i dummyUrl =
          dbSweep.urls.getD i dummyUrl)) ∧
    deactivate_urls 100 (deactivate_urls 100 dbSweep) = deactivate_urls 100 dbSweep :=
  claim_C6 100 100 dbSweep (fun _ _ hle => hle)

/-! ### Characterizing LIKE matching for wildcard-free keys -/

/-- With enough fuel, a wildcard-free pattern LIKE-matches exactly the equal
string. -/
theorem likeMatchF_exact : ∀ (fuel : Nat) (p s : List Char),
    p.length + s.length < fuel → (∀ c ∈ p, c ≠ '%' ∧ c ≠ '_') →
    (likeMatchF fuel p s = true ↔ p = s) := by
  intro fuel
  induction fuel with
  | zero => intro p s hb _; omega
  | succ fuel ih =>
    intro p s hb hw
    cases p with
    | nil =>
      cases s with
      | nil => simp [likeMatchF]
      | cons d s1 => simp [likeMatchF]
    | cons c ps =>
      have hcp : c ≠ '%' := (hw c (List.mem_cons_self c ps)).1
      have hcu : c ≠ '_' := (hw c (List.mem_cons_self c ps)).2
      cases s with
      | nil => simp [likeMatchF, hcp]
      | cons d s1 =>
        rw [likeMatchF, if_neg hcp]
        have hih := ih ps s1 (by simp at hb ⊢; omega)
          (fun x hx => hw x (List.mem_cons_of_mem c hx))
        rw [if_neg hcu]
        constructor
        · intro hand
          obtain ⟨hcd, hrest⟩ := Bool.and_eq_true_iff.mp hand
          have : c = d := by simpa using hcd
          rw [this, hih.mp hrest]
        · intro heq
          obtain ⟨h1, h2⟩ := List.cons.injEq c ps d s1 ▸ heq
          rw [Bool.and_eq_true_iff]
          exact ⟨by simp [h1], hih.mpr h2⟩

/-- With enough fuel, `%` followed by a wildcard-free pattern LIKE-matches
exactly the strings having that pattern as a suffix. -/
theorem likeMatchF_pct : ∀ (fuel : Nat) (p s : List Char),
    p.length + s.length + 1 < fuel → (∀ c ∈ p, c ≠ '%' ∧ c ≠ '_') →
    (likeMatchF fuel ('%' :: p) s = true ↔ p <:+ s) := by
  intro fuel
  induction fuel with
  | zero => intro p s hb _; omega
  | succ fuel ih =>
    intro p s hb hw
    simp only [likeMatchF, if_true]
    cases s with
    | nil =>
      show (likeMatchF fuel p [] || false) = true ↔ p <:+ []
      simp only [Bool.or_false]
      rw [likeMatchF_exact fuel p [] (by simp at hb ⊢; omega) hw, List.suffix_nil]
    | cons d s1 =>
      show (likeMatchF fuel p (d :: s1) || likeMatchF fuel ('%' :: p) s1) = true ↔
        p <:+ d :: s1
      rw [Bool.or_eq_true, likeMatchF_exact fuel p (d :: s1) (by simp at hb ⊢; omega) hw,
        ih p s1 (by simp at hb ⊢; omega) hw, List.suffix_cons_iff]

/-- The service's LIKE lookup pattern `'%/' + key`, for a wildcard-free key,
matches exactly the strings ending in `/key`. -/
theorem likeMatch_suffix (short_url_key : String) (s : List Char)
    (hk : ∀ c ∈ short_url_key.data, c ≠ '%' ∧ c ≠ '_') :
    (likeMatch (likePattern short_url_key) s = true ↔
      ('/' :: short_url_key.data) <:+ s) := by
  have hnw : ∀ c ∈ '/' :: short_url_key.data, c ≠ '%' ∧ c ≠ '_' := by
    intro c hc
    rcases List.mem_cons.mp hc with h | h
    · subst h; exact ⟨by decide, by decide⟩
    · exact hk c h
  have hb : ('/' :: short_url_key.data).length + s.length + 1 <
      (likePattern short_url_key).length + s.length + 1 := by
    simp [likePattern]
  exact likeMatchF_pct _ _ _ hb hnw

/-- C7 counterexample: for the shortKey `%` (a LIKE wildcard) the lookup
succeeds on `dbLike` — `recordClick` returns a click event — although no
link's short url literally ends with `/%`, so the claimed iff fails as a
universal statement over all shortKeys. -/
theorem claim_C7_counterexample :
    (∃ c, (add_url_click "%" 7 dbLike).1 = .ok c) ∧
    (∀ u ∈ dbLike.urls, ¬ ('/' :: "%".data) <:+ u.short_url.data) := by
  constructor
  · exact ⟨⟨1, 7⟩, by decide⟩
  · intro u hu
    have hu' : u = ⟨1, "http://ex.com/a/b", "http://localhost:8000/ab", 0, 1440, true, 1⟩ := by
      simpa [dbLike] using hu
    subst hu'
    intro hsuf
    rw [← List.isSuffixOf_iff_suffix] at hsuf
    exact absurd hsuf (by decide)

/-- C7 (amended): for every shortKey containing no LIKE wildcard (`%`, `_`),
`add_url_click` fails with the not-found error exactly when no link's short
url ends with `/shortKey`; and whenever some link's short url does end with
`/shortKey` — in particular also when that link is inactive, since activity
is never checked — it succeeds and appends exactly one click event with
`clicked_at = now`, leaving the url table unchanged.  (The databases are
assumed to carry no row with the falsy id 0, as SQL autoincrement ids start
at 1.) -/
theorem claim_C7 (short_url_key : String) (now : Int) (db : DB)
    (hk : ∀ c ∈ short_url_key.data, c ≠ '%' ∧ c ≠ '_')
    (hid : ∀ u ∈ db.urls, u.id ≠ 0) :
    ((add_url_click short_url_key now db).1 = .error .notFound ↔
      ∀ u ∈ db.urls, ¬ ('/' :: short_url_key.data) <:+ u.short_url.data) ∧
    (∀ u ∈ db.urls, ('/' :: short_url_key.data) <:+ u.short_url.data →
      ∃ c : UrlClicks, (add_url_click short_url_key now db).1 = .ok c ∧
        c.clicked_at = now ∧
        (add_url_click short_url_key now db).2.committed.clicks = db.clicks ++ [c] ∧
        (add_url_click short_url_key now db).2.committed.urls = db.urls) := by
  cases hfind : db.urls.find? (fun u =>
      likeMatch (likePattern short_url_key) u.short_url.data) with
  | none =>
    have hall : ∀ u ∈ db.urls, ¬ ('/' :: short_url_key.data) <:+ u.short_url.data := by
      intro u hu hsuf
      have hp : likeMatch (likePattern short_url_key) u.short_url.data = true :=
        (likeMatch_suffix short_url_key u.short_url.data hk).mpr hsuf
      exact absurd hp (by simpa using List.find?_eq_none.mp hfind u hu)
    have hres : (add_url_click short_url_key now db).1 = .error .notFound := by
      simp [add_url_click, hfind]
    refine ⟨⟨fun _ => hall, fun _ => hres⟩, ?_⟩
    intro u hu hsuf
    exact absurd hsuf (hall u hu)
  | some u =>
    have humem : u ∈ db.urls := List.mem_of_find?_eq_some hfind
    have hpu : likeMatch (likePattern short_url_key) u.short_url.data = true := by
      have := List.find?_some hfind
      simpa using this
    have hsufu : ('/' :: short_url_key.data) <:+ u.short_url.data :=
      (likeMatch_suffix short_url_key u.short_url.data hk).mp hpu
    have hidne : ¬ u.id = 0 := hid u humem
    have hc : ((Session.fresh db).add_click ⟨u.id, now⟩).commit =
        some ⟨⟨db.urls, db.clicks ++ [⟨u.id, now⟩]⟩, [], []⟩ := by
      simp [Session.commit, Session.add_click, Session.fresh]
    have hres : add_url_click short_url_key now db =
        (.ok ⟨u.id, now⟩, ⟨⟨db.urls, db.clicks ++ [⟨u.id, now⟩]⟩, [], []⟩) := by
      simp only [add_url_click, hfind, Option.map_some', hc]
      rw [if_neg hidne]
    constructor
    · rw [hres]
      constructor
      · intro h
        exact absurd h (by simp)
      · intro hall
        exact absurd hsufu (hall u humem)
    · intro v hv hsufv
      refine ⟨⟨u.id, now⟩, ?_, rfl, ?_, ?_⟩ <;> rw [hres]

/-- C7 witness: on `dbLike` with the wildcard-free key `ab` the amended
characterization holds. -/
theorem claim_C7_witness :
    (((add_url_click "ab" 7 dbLike).1 = .error .notFound ↔
      ∀ u ∈ dbLike.urls, ¬ ('/' :: "ab".data) <:+ u.short_url.data) ∧
    (∀ u ∈ dbLike.urls, ('/' :: "ab".data) <:+ u.short_url.data →
      ∃ c : UrlClicks, (add_url_click "ab" 7 dbLike).1 = .ok c ∧
        c.clicked_at = 7 ∧
        (add_url_click "ab" 7 dbLike).2.committed.clicks = dbLike.clicks ++ [c] ∧
        (add_url_click "ab" 7 dbLike).2.committed.urls = dbLike.urls)) :=
  claim_C7 "ab" 7 dbLike (by decide) (by decide)

/-- C10: the suffix lookup builds the unescaped LIKE pattern `'%/' + key`
from caller input, so the wildcard shortKey `%` makes both the redirect
lookup (`get_origin_url`) and the click lookup (`add_url_click`) succeed on
`dbLike`, returning the link `.../ab`, whose short url does not literally
end with `/%`. -/
theorem claim_C10 :
    likeMatch (likePattern "%") "http://localhost:8000/ab".data = true ∧
    ¬ ('/' :: "%".data) <:+ "http://localhost:8000/ab".data ∧
    get_origin_url "%" dbLike =
      .ok ⟨1, "http://ex.com/a/b", "http://localhost:8000/ab", 0, 1440, true, 1⟩ ∧
    (add_url_click "%" 7 dbLike).1 = .ok ⟨1, 7⟩ := by
  refine ⟨by decide, ?_, by decide, by decide⟩
  intro hsuf
  rw [← List.isSuffixOf_iff_suffix] at hsuf
  exact absurd hsuf (by decide)

/-! ### Lemmas for the statistics service -/

/-- With the unique constraint on `short_url`, re-fetching a row by its own
short url finds exactly that row. -/
theorem find?_eq_self_of_nodup {l : List Urls}
    (h : (l.map (fun u => u.short_url)).Nodup) {u : Urls} (hu : u ∈ l) :
    l.find? (fun v => v.short_url == u.short_url) = some u := by
  induction l with
  | nil => cases hu
  | cons w t ih =>
    rw [List.map_cons, List.nodup_cons] at h
    rcases List.mem_cons.mp hu with rfl | hut
    · simp [List.find?_cons]
    · have hne : ¬ w.short_url = u.short_url := by
        intro he
        exact h.1 (he ▸ List.mem_map_of_mem (fun v => v.short_url) hut)
      rw [List.find?_cons]
      have : (w.short_url == u.short_url) = false := by
        simpa using hne
      rw [this]
      exact ih h.2 hut

/-- The statistics loop succeeds and produces one record per url row, in
table order. -/
theorem stat_loop_ok (db : DB) (now_tz : Int)
    (h : (db.urls.map (fun u => u.short_url)).Nodup) :
    ∀ L : List Urls, (∀ u ∈ L, u ∈ db.urls) →
    stat_loop db now_tz (L.map (fun u => u.short_url)) =
      .ok (L.map (mkStat db now_tz)) := by
  intro L
  induction L with
  | nil => intro _; rfl
  | cons u t ih =>
    intro hsub
    rw [List.map_cons, List.map_cons, stat_loop,
      find?_eq_self_of_nodup h (hsub u (List.mem_cons_self u t)),
      ih (fun v hv => hsub v (List.mem_cons_of_mem u hv))]

/-- Inserting keeps the elements (up to permutation). -/
theorem insort_perm (x : UrlStatistic) (l : List UrlStatistic) :
    (insort x l).Perm (x :: l) := by
  induction l with
  | nil => exact List.Perm.refl _
  | cons y ys ih =>
    rw [insort]
    by_cases hlt : y.last_day_clicks < x.last_day_clicks
    · rw [if_pos hlt]
    · rw [if_neg hlt]
      exact (ih.cons y).trans (List.Perm.swap x y ys)

/-- Inserting preserves descending sortedness on `last_day_clicks`. -/
theorem insort_sorted (x : UrlStatistic) (l : List UrlStatistic)
    (h : l.Pairwise (fun a b => b.last_day_clicks ≤ a.last_day_clicks)) :
    (insort x l).Pairwise (fun a b => b.last_day_clicks ≤ a.last_day_clicks) := by
  induction l with
  | nil => simp [insort]
  | cons y ys ih =>
    obtain ⟨hy, hys⟩ := List.pairwise_cons.mp h
    rw [insort]
    by_cases hlt : y.last_day_clicks < x.last_day_clicks
    · rw [if_pos hlt]
      refine List.pairwise_cons.mpr ⟨?_, h⟩
      intro z hz
      rcases List.mem_cons.mp hz with rfl | hzys
      · exact Nat.le_of_lt hlt
      · exact Nat.le_trans (hy z hzys) (Nat.le_of_lt hlt)
    · rw [if_neg hlt]
      refine List.pairwise_cons.mpr ⟨?_, ih hys⟩
      intro z hz
      rcases List.mem_cons.mp ((insort_perm x ys).mem_iff.mp hz) with rfl | hzys
      · exact Nat.le_of_not_lt hlt
      · exact hy z hzys

/-- The stable descending sort is a permutation. -/
theorem sortByDayDesc_perm (l : List UrlStatistic) : (sortByDayDesc l).Perm l := by
  have aux : ∀ (t acc : List UrlStatistic),
      (t.foldl (fun a x => insort x a) acc).Perm (acc ++ t) := by
    intro t
    induction t with
    | nil => intro acc; simp
    | cons x ts ih =>
      intro acc
      rw [List.foldl_cons]
      refine (ih (insort x acc)).trans ?_
      refine (List.Perm.append_right ts (insort_perm x acc)).trans ?_
      exact (List.perm_middle).symm
  simpa using aux l []

/-- The stable descending sort is sorted descending on `last_day_clicks`. -/
theorem sortByDayDesc_sorted (l : List UrlStatistic) :
    (sortByDayDesc l).Pairwise (fun a b => b.last_day_clicks ≤ a.last_day_clicks) := by
  have aux : ∀ (t acc : List UrlStatistic),
      acc.Pairwise (fun a b => b.last_day_clicks ≤ a.last_day_clicks) →
      (t.foldl (fun a x => insort x a) acc).Pairwise
        (fun a b => b.last_day_clicks ≤ a.last_day_clicks) := by
    intro t
    induction t with
    | nil => intro acc hacc; simpa using hacc
    | cons x ts ih =>
      intro acc hacc
      rw [List.foldl_cons]
      exact ih (insort x acc) (insort_sorted x acc hacc)
  exact aux l [] (List.Pairwise.nil)

/-- The per-row statistics record, with its two window counts written as
explicit filters over the click table. -/
theorem mkStat_eq (db : DB) (now_tz : Int) (u : Urls) :
    mkStat db now_tz u =
      { link := u.short_url, orig_link := u.origin_url,
        last_hour_clicks := (db.clicks.filter (fun c =>
          decide (c.url_id = u.id ∧ now_tz - 60 ≤ c.clicked_at))).length,
        last_day_clicks := (db.clicks.filter (fun c =>
          decide (c.url_id = u.id ∧ now_tz - 1440 ≤ c.clicked_at))).length } := by
  unfold mkStat _get_last_hour_stat _get_last_day_stat
  congr 1
  · refine congrArg List.length (List.filter_congr ?_)
    intro c _
    by_cases h1 : c.url_id = u.id <;>
      by_cases h2 : now_tz - 60 ≤ c.clicked_at <;> simp [h1, h2]
  · refine congrArg List.length (List.filter_congr ?_)
    intro c _
    by_cases h1 : c.url_id = u.id <;>
      by_cases h2 : now_tz - 1440 ≤ c.clicked_at <;> simp [h1, h2]

/-- C8: under the unique constraint on short urls, `get_full_stat` returns
exactly one record per link, whose last-hour count is the number of that
link's clicks with `clicked_at >= now - 1h` and last-day count the number
with `clicked_at >= now - 24h` (with `now_tz` the tz-aware clock of the
designated timezone), and the result is sorted descending by last-day
count. -/
theorem claim_C8 (now_tz : Int) (db : DB)
    (hnd : (db.urls.map (fun u => u.short_url)).Nodup) :
    ∃ stats, get_full_stat now_tz db = .ok stats ∧
      stats.Perm (db.urls.map (fun u =>
        ({ link := u.short_url, orig_link := u.origin_url,
           last_hour_clicks := (db.clicks.filter (fun c =>
             decide (c.url_id = u.id ∧ now_tz - 60 ≤ c.clicked_at))).length,
           last_day_clicks := (db.clicks.filter (fun c =>
             decide (c.url_id = u.id ∧ now_tz - 1440 ≤ c.clicked_at))).length }
          : UrlStatistic))) ∧
      stats.length = db.urls.length ∧
      stats.Pairwise (fun a b => b.last_day_clicks ≤ a.last_day_clicks) := by
  have hperm := sortByDayDesc_perm (db.urls.map (mkStat db now_tz))
  refine ⟨sortByDayDesc (db.urls.map (mkStat db now_tz)), ?_, ?_, ?_, ?_⟩
  · rw [get_full_stat, stat_loop_ok db now_tz hnd db.urls (fun _ h => h)]
  · have hmap : db.urls.map (mkStat db now_tz) = db.urls.map (fun u =>
        ({ link := u.short_url, orig_link := u.origin_url,
           last_hour_clicks := (db.clicks.filter (fun c =>
             decide (c.url_id = u.id ∧ now_tz - 60 ≤ c.clicked_at))).length,
           last_day_clicks := (db.clicks.filter (fun c =>
             decide (c.url_id = u.id ∧ now_tz - 1440 ≤ c.clicked_at))).length }
          : UrlStatistic)) :=
      List.map_congr_left (fun u _ => mkStat_eq db now_tz u)
    refine hperm.trans ?_
    rw [hmap]
  · rw [hperm.length_eq, List.length_map]
  · exact sortByDayDesc_sorted _

/-- C8 witness: on `dbStat` at clock 100 the report is link 1 (hour 1, day
2) before link 2 (hour 1, day 1), sorted descending by day count. -/
theorem claim_C8_witness :
    ∃ stats, get_full_stat 100 dbStat = .ok stats ∧
      stats.Perm (dbStat.urls.map (fun u =>
        ({ link := u.short_url, orig_link := u.origin_url,
           last_hour_clicks := (dbStat.clicks.filter (fun c =>
             decide (c.url_id = u.id ∧ 100 - 60 ≤ c.clicked_at))).length,
           last_day_clicks := (dbStat.clicks.filter (fun c =>
             decide (c.url_id = u.id ∧ 100 - 1440 ≤ c.clicked_at))).length }
          : UrlStatistic))) ∧
      stats.length = dbStat.urls.length ∧
      stats.Pairwise (fun a b => b.last_day_clicks ≤ a.last_day_clicks) :=
  claim_C8 100 dbStat (by decide)

end ShortUrls
